import Mathlib

/-!
Verification development for the job-fetcher repository.

The repository consists of two pipeline scripts, `fetch_and_extract.py` and
`fetch_intern_list.py`, plus a small test helper. This file gives a shallow
embedding of the extraction, normalization, classification and coordination
logic of both scripts, and proves properties about the embedding.

Conventions of the embedding:
  - Python strings are Lean `String` (kernel model: a list of characters).
  - Python dicts with string keys and values are association lists
    (`PyDict` below) with insertion-ordered keys, mirroring Python dict
    semantics: updating an existing key keeps its position, a new key is
    appended, and iteration over `keys()` follows that order.
  - Dates are represented as `Int` counting days since 1970-01-01
    (rata die shifted to the Unix epoch); `daysFromCivil` converts a
    calendar date to that count. The wall clock (which Python reads via
    `datetime.utcnow()` / `datetime.now(...)`) is passed in explicitly as
    a parameter (`today` in days, `nowH` in hours since the epoch, and the
    current year), since tests must inject a fixed clock.
    Note: Python raises OverflowError when a subtraction falls before year 1;
    the `Int` model simply goes negative there. No claim touches that range.
  - Fallible code is modelled with `Except`.
  - The character classes of the regexes in the source (`\d`, `\s`,
    `[A-Za-z]`) are modelled by the ASCII predicates below.
-/

set_option maxRecDepth 4000

/-! ## Python-style string primitives -/

/-- ASCII digit, the `\d` class of the regexes in the source. -/
def pyIsDigit (c : Char) : Bool := 48 ≤ c.toNat && c.toNat ≤ 57

/-- ASCII whitespace, the `\s` class and the characters stripped by
`str.strip()` for the inputs this pipeline sees. -/
def pyIsSpace (c : Char) : Bool :=
  c == ' ' || c == '\t' || c == '\n' || c == '\r' || c == '\x0b' || c == '\x0c'

/-- ASCII letter, the `[A-Za-z]` class. -/
def pyIsAlpha (c : Char) : Bool :=
  (65 ≤ c.toNat && c.toNat ≤ 90) || (97 ≤ c.toNat && c.toNat ≤ 122)

/-- Lowercasing as used by `str.lower()` on the (ASCII) data of this pipeline. -/
def lowerStr (s : String) : String := String.mk (s.toList.map Char.toLower)

/-- Uppercasing as used by `str.upper()`. -/
def upperStr (s : String) : String := String.mk (s.toList.map Char.toUpper)

/-- Does the character list start with the given pattern. -/
def startsWithL : List Char → List Char → Bool
  | [], _ => true
  | _ :: _, [] => false
  | p :: ps, c :: cs => p == c && startsWithL ps cs

/-- Does `pat` occur as a contiguous infix of `hay` (the Python `in` test
on strings). -/
def hasInfixL (pat : List Char) : List Char → Bool
  | [] => startsWithL pat []
  | c :: cs => startsWithL pat (c :: cs) || hasInfixL pat cs

/-- Python `pat in hay` on strings. -/
def strContains (hay pat : String) : Bool := hasInfixL pat.toList hay.toList

/-- Strip leading and trailing whitespace, the Python `str.strip()`. -/
def stripL (cs : List Char) : List Char :=
  ((cs.dropWhile pyIsSpace).reverse.dropWhile pyIsSpace).reverse

/-- Python `str.strip()`. -/
def stripStr (s : String) : String := String.mk (stripL s.toList)

/-- Split on a separator character keeping empty fields, the Python
`str.split(sep)` with an explicit separator. -/
def splitOnCharL (sep : Char) : List Char → List (List Char)
  | [] => [[]]
  | c :: cs =>
    let rest := splitOnCharL sep cs
    if c == sep then [] :: rest
    else
      match rest with
      | [] => [[c]]
      | t :: ts => (c :: t) :: ts

/-- Python `s.split(sep)` for a one-character separator. -/
def pySplitChar (sep : Char) (s : String) : List String :=
  (splitOnCharL sep s.toList).map String.mk

/-- Helper for `pySplitWS`: accumulate the current token in reverse. -/
def pySplitWSAux : List Char → List Char → List (List Char)
  | acc, [] => if acc.isEmpty then [] else [acc.reverse]
  | acc, c :: cs =>
    if pyIsSpace c then
      if acc.isEmpty then pySplitWSAux [] cs
      else acc.reverse :: pySplitWSAux [] cs
    else pySplitWSAux (c :: acc) cs

/-- Python `str.split()` with no argument: whitespace-separated tokens,
no empty tokens. -/
def pySplitWS (s : String) : List String := (pySplitWSAux [] s.toList).map String.mk

/-- Helper for `reSplitSeps`: split on maximal runs of whitespace/comma,
producing empty fields at the boundaries exactly as `re.split` does.
`acc` is the current token reversed; `prevSep` records whether the previous
character belonged to a separator run. -/
def reSplitSepsAux : List Char → Bool → List Char → List (List Char)
  | acc, _, [] => [acc.reverse]
  | acc, prevSep, c :: cs =>
    if pyIsSpace c || c == ',' then
      if prevSep then reSplitSepsAux [] true cs
      else acc.reverse :: reSplitSepsAux [] true cs
    else reSplitSepsAux (c :: acc) false cs

/-- Python `re.split(r"[\s,]+", s)`: tokens between maximal separator runs,
with an empty token at a boundary that starts or ends the string. -/
def reSplitSeps (s : String) : List String :=
  (reSplitSepsAux [] false s.toList).map String.mk

/-- Join a list of strings with single spaces, the Python `" ".join(...)`. -/
def joinWithSpace : List String → String
  | [] => ""
  | [s] => s
  | s :: rest => s ++ " " ++ joinWithSpace rest

/-- Evaluate a digit string to a number, the Python `int(...)` on a match of
`\d+`. -/
def natOfDigitsL (cs : List Char) : Nat := cs.foldl (fun n c => n * 10 + (c.toNat - 48)) 0

/-! ## Calendar arithmetic

Dates are days since 1970-01-01. `daysFromCivil` is the standard civil-date
to day-count conversion; it models what a Python `date` object denotes, so
that date comparison is integer comparison and `date - timedelta(days=n)`
is integer subtraction. -/

def isLeapYear (y : Int) : Bool := (y % 4 == 0 && y % 100 != 0) || y % 400 == 0

def daysInMonth (y m : Int) : Int :=
  if m == 2 then (if isLeapYear y then 29 else 28)
  else if m == 4 || m == 6 || m == 9 || m == 11 then 30
  else 31

/-- Validity check performed by `datetime.strptime` on the numeric fields of
a date (Python datetime years start at 1). -/
def isValidDate (y m d : Int) : Bool :=
  decide (1 ≤ y) && decide (1 ≤ m) && decide (m ≤ 12) && decide (1 ≤ d) && decide (d ≤ daysInMonth y m)

/-- Days since 1970-01-01 of the civil date y-m-d. -/
def daysFromCivil (y m d : Int) : Int :=
  let y2 : Int := y - (if m ≤ 2 then 1 else 0)
  let era : Int := y2.fdiv 400
  let yoe : Int := y2 - era * 400
  let mp : Int := (m + 9).emod 12
  let doy : Int := (153 * mp + 2).fdiv 5 + d - 1
  let doe : Int := yoe * 365 + yoe.fdiv 4 - yoe.fdiv 100 + doy
  era * 146097 + doe - 719468

/-- The sentinel `datetime(1970, 1, 1).date()` used as sort key fallback. -/
def epochOrd : Int := daysFromCivil 1970 1 1

/-! ## Token classifier: geography

`looks_like_us_or_canada` is defined, textually identically, in
`fetch_and_extract.py` (lines 62-74) and `fetch_intern_list.py`
(lines 25-44); this single definition embeds both. -/

def US_STATE_ABBREVS : List String :=
  ["AL","AK","AZ","AR","CA","CO","CT","DE","FL","GA","HI","ID","IL","IN","IA","KS",
   "KY","LA","ME","MD","MA","MI","MN","MS","MO","MT","NE","NV","NH","NJ","NM","NY",
   "NC","ND","OH","OK","OR","PA","RI","SC","SD","TN","TX","UT","VT","VA","WA","WV","WI","WY"]

def looks_like_us_or_canada (loc : String) : Bool :=
  if loc == "" then false
  else
    let s := lowerStr loc
    if strContains s "usa" || strContains s "united states" || strContains s " us" then true
    else if strContains s "canada" || strContains s "ontario" || strContains s "toronto"
            || strContains s "vancouver" then true
    else (reSplitSeps (upperStr loc)).any (fun t => US_STATE_ABBREVS.contains t)

/-- The claim-side statement of the geography classifier, written following
the wording of the specification: false on the empty string; true when the
text contains one of the fixed country/region markers case-insensitively, or
when some whitespace/comma-separated token of the uppercased text is a US
state postal abbreviation; false otherwise. Kept separate from
`looks_like_us_or_canada` so the two can be compared. -/
def is_us_or_canada_location_spec (text : String) : Bool :=
  if text == "" then false
  else
    let markers : List String :=
      ["usa", "united states", " us", "canada", "ontario", "toronto", "vancouver"]
    markers.any (fun m => strContains (lowerStr text) m)
      || (reSplitSeps (upperStr text)).any (fun t => US_STATE_ABBREVS.contains t)

/-! ## Token classifier: recency

Both scripts carry the same four absolute-date regexes (`DATE_PATTERNS` in
`fetch_and_extract.py` lines 22-27, `date_patterns` in `fetch_intern_list.py`
lines 377-382) and apply them with `pat.search` (leftmost match in the
token): on the first pattern whose search succeeds, `strptime` is attempted
on the captured text; a `strptime` failure falls through to the next
pattern (the bare `except: pass`), and a pattern is attempted at its first
matching position only. -/

/-- Maximal run of ASCII digits at the head, with the remainder. -/
def takeDigits : List Char → (List Char × List Char)
  | [] => ([], [])
  | c :: cs =>
    if pyIsDigit c then
      let p := takeDigits cs
      (c :: p.1, p.2)
    else ([], c :: cs)

/-- Maximal run of ASCII letters at the head, with the remainder. -/
def takeAlphas : List Char → (List Char × List Char)
  | [] => ([], [])
  | c :: cs =>
    if pyIsAlpha c then
      let p := takeAlphas cs
      (c :: p.1, p.2)
    else ([], c :: cs)

/-- Leftmost-position regex search: try the matcher at every suffix, left to
right (also at the empty suffix, as `re.search` does). -/
def searchL (f : List Char → Option α) : List Char → Option α
  | [] => f []
  | c :: cs =>
    match f (c :: cs) with
    | some v => some v
    | none => searchL f cs

/-- Match `\d{2}/\d{2}/\d{4}` at this position, returning the captured
numbers (month, day, year). -/
def matchMDYAt : List Char → Option (Int × Int × Int)
  | a :: b :: '/' :: c :: d :: '/' :: e :: f :: g :: h :: _ =>
    if pyIsDigit a && pyIsDigit b && pyIsDigit c && pyIsDigit d &&
       pyIsDigit e && pyIsDigit f && pyIsDigit g && pyIsDigit h then
      some ((natOfDigitsL [a, b] : Int), (natOfDigitsL [c, d] : Int), (natOfDigitsL [e, f, g, h] : Int))
    else none
  | _ => none

/-- Match `\d{4}-\d{2}-\d{2}` at this position, returning (year, month, day). -/
def matchYMDAt : List Char → Option (Int × Int × Int)
  | a :: b :: c :: d :: '-' :: e :: f :: '-' :: g :: h :: _ =>
    if pyIsDigit a && pyIsDigit b && pyIsDigit c && pyIsDigit d &&
       pyIsDigit e && pyIsDigit f && pyIsDigit g && pyIsDigit h then
      some ((natOfDigitsL [a, b, c, d] : Int), (natOfDigitsL [e, f] : Int), (natOfDigitsL [g, h] : Int))
    else none
  | _ => none

/-- Match the tail `,? \d{4}` of the third pattern: an optional comma, a
space, four digits. Returns whether the comma was present, and the year.
(The regex engine would backtrack over the optional comma, but when a comma
is present the no-comma alternative immediately fails on the space literal,
so no further cases arise.) -/
def matchCommaYear : List Char → Option (Bool × Int)
  | ',' :: ' ' :: a :: b :: c :: d :: _ =>
    if pyIsDigit a && pyIsDigit b && pyIsDigit c && pyIsDigit d then
      some (true, (natOfDigitsL [a, b, c, d] : Int))
    else none
  | ' ' :: a :: b :: c :: d :: _ =>
    if pyIsDigit a && pyIsDigit b && pyIsDigit c && pyIsDigit d then
      some (false, (natOfDigitsL [a, b, c, d] : Int))
    else none
  | _ => none

/-- Match `\d{1,2},? \d{4}`: one or two digits (greedy, backtracking to one
digit when the tail fails), then the comma/year tail. Returns the day, the
comma flag and the year. -/
def matchDayTail : List Char → Option (Int × Bool × Int)
  | [] => none
  | d1 :: rest =>
    if pyIsDigit d1 then
      match rest with
      | d2 :: rest2 =>
        if pyIsDigit d2 then
          match matchCommaYear rest2 with
          | some (b, y) => some ((natOfDigitsL [d1, d2] : Int), b, y)
          | none => (matchCommaYear rest).map (fun p => ((natOfDigitsL [d1] : Int), p.1, p.2))
        else (matchCommaYear rest).map (fun p => ((natOfDigitsL [d1] : Int), p.1, p.2))
      | [] => none
    else none

/-- Match `[A-Za-z]{3,9} \d{1,2},? \d{4}` at this position. The letter run
is forced to be maximal: any shorter greedy retry leaves a letter where the
space literal must match. Returns the month word, day, comma flag, year. -/
def matchMonthDDYYYYAt (cs : List Char) : Option (List Char × Int × Bool × Int) :=
  let p := takeAlphas cs
  if 3 ≤ p.1.length && p.1.length ≤ 9 then
    match p.2 with
    | ' ' :: rest2 => (matchDayTail rest2).map (fun q => (p.1, q.1, q.2.1, q.2.2))
    | _ => none
  else none

/-- Match `[A-Za-z]{3} \d{1,2}` at this position: exactly a three-letter run
(a longer run leaves a letter where the space must match), a space, then one
or two digits (greedy). Returns the month word and the day. -/
def matchMonDDAt (cs : List Char) : Option (List Char × Int) :=
  let p := takeAlphas cs
  if p.1.length == 3 then
    match p.2 with
    | ' ' :: d1 :: rest2 =>
      if pyIsDigit d1 then
        match rest2 with
        | d2 :: _ =>
          if pyIsDigit d2 then some (p.1, (natOfDigitsL [d1, d2] : Int))
          else some (p.1, (natOfDigitsL [d1] : Int))
        | [] => some (p.1, (natOfDigitsL [d1] : Int))
      else none
    | _ => none
  else none

/-- Full month names accepted by the `%B` directive of `strptime`
(case-insensitive). -/
def monthNamesFull : List String :=
  ["january", "february", "march", "april", "may", "june", "july",
   "august", "september", "october", "november", "december"]

/-- Abbreviated month names accepted by the `%b` directive. -/
def monthAbbrevs : List String :=
  ["jan", "feb", "mar", "apr", "may", "jun", "jul", "aug", "sep", "oct", "nov", "dec"]

/-- Month number of a word under `%B`, if any. -/
def monthFromFull (w : List Char) : Option Int :=
  (monthNamesFull.findIdx? (fun n => n == String.mk (w.map Char.toLower))).map
    (fun i => (i : Int) + 1)

/-- Month number of a word under `%b`, if any. -/
def monthFromAbbrev (w : List Char) : Option Int :=
  (monthAbbrevs.findIdx? (fun n => n == String.mk (w.map Char.toLower))).map
    (fun i => (i : Int) + 1)

/-- The shared `DATE_PATTERNS` cascade: try the four patterns in priority
order; a pattern whose leftmost match fails `strptime` validation falls
through to the next pattern. `year` is the current year read from the clock,
used to complete the `Mon DD` format. -/
def search_date_patterns (year : Int) (cs : List Char) : Option Int :=
  let r1 : Option Int :=
    match searchL matchMDYAt cs with
    | some (m, d, y) => if isValidDate y m d then some (daysFromCivil y m d) else none
    | none => none
  match r1 with
  | some v => some v
  | none =>
    let r2 : Option Int :=
      match searchL matchYMDAt cs with
      | some (y, m, d) => if isValidDate y m d then some (daysFromCivil y m d) else none
      | none => none
    match r2 with
    | some v => some v
    | none =>
      -- strptime with "%B %d, %Y" requires the comma literal and a full
      -- month name; the captured text is re-parsed from its components.
      let r3 : Option Int :=
        match searchL matchMonthDDYYYYAt cs with
        | some (w, d, comma, y) =>
          if comma then
            match monthFromFull w with
            | some m => if isValidDate y m d then some (daysFromCivil y m d) else none
            | none => none
          else none
        | none => none
      match r3 with
      | some v => some v
      | none =>
        -- the source appends ", {current year}" to the captured text and
        -- parses with "%b %d, %Y".
        match searchL matchMonDDAt cs with
        | some (w, d) =>
          match monthFromAbbrev w with
          | some m => if isValidDate year m d then some (daysFromCivil year m d) else none
          | none => none
        | none => none

/-- `parse_date_token` of `fetch_and_extract.py` (lines 29-46): first the
anchored `^(\d+)d$` relative form, computing `utcnow().date() - N` (the
clock is passed as `today`, days since the epoch, and `year`, the current
year); then the shared pattern cascade. Unmatched input yields `none`. -/
def fae_parse_date_token (today year : Int) (token : String) : Option Int :=
  let cs := stripL token.toList
  let p := takeDigits cs
  if !p.1.isEmpty && p.2 == ['d'] then some (today - (natOfDigitsL p.1 : Int))
  else search_date_patterns year cs

/-- `parse_date_token` of `fetch_intern_list.py` (lines 357-397): empty
tokens short-circuit to `none`; then the anchored, case-insensitive
`^(\d+)\s*days?\s*ago$` and `^(\d+)\s*hours?\s*ago$` relative forms against
`datetime.now(timezone.utc)` (passed as `nowH`, whole hours since the
epoch — minutes and seconds cannot affect the resulting `.date()`); then
the same pattern cascade. -/
def matchDaysAgo (cs : List Char) : Option Int :=
  let p := takeDigits cs
  if p.1.isEmpty then none
  else
    match (p.2.dropWhile pyIsSpace).map Char.toLower with
    | 'd' :: 'a' :: 'y' :: r =>
      let r2 := match r with
        | 's' :: r2 => r2
        | _ => r
      match r2.dropWhile pyIsSpace with
      | ['a', 'g', 'o'] => some (natOfDigitsL p.1 : Int)
      | _ => none
    | _ => none

def matchHoursAgo (cs : List Char) : Option Int :=
  let p := takeDigits cs
  if p.1.isEmpty then none
  else
    match (p.2.dropWhile pyIsSpace).map Char.toLower with
    | 'h' :: 'o' :: 'u' :: 'r' :: r =>
      let r2 := match r with
        | 's' :: r2 => r2
        | _ => r
      match r2.dropWhile pyIsSpace with
      | ['a', 'g', 'o'] => some (natOfDigitsL p.1 : Int)
      | _ => none
    | _ => none

def il_parse_date_token (nowH year : Int) (token : String) : Option Int :=
  if token == "" then none
  else
    let cs := stripL token.toList
    match matchDaysAgo cs with
    | some n => some (nowH.fdiv 24 - n)
    | none =>
      match matchHoursAgo cs with
      | some n => some ((nowH - n).fdiv 24)
      | none => search_date_patterns year cs

/-! ## Python dict model -/

/-- A Python dict with string keys and values: an association list whose
keys are unique and insertion-ordered. -/
abbrev PyDict := List (String × String)

/-- Python `d.get(k, dflt)`. -/
def dget (d : PyDict) (k dflt : String) : String :=
  match d.find? (fun p => p.1 == k) with
  | some p => p.2
  | none => dflt

/-- Python `d[k] = v`: updating an existing key keeps its position, a new
key is appended. -/
def dsetKV (d : PyDict) (k v : String) : PyDict :=
  if d.any (fun p => p.1 == k) then d.map (fun p => if p.1 == k then (k, v) else p)
  else d ++ [(k, v)]

/-- Python `d.keys()` in iteration order. -/
def dkeys (d : PyDict) : List String := d.map (fun p => p.1)

/-- Python `k in d`. -/
def dhas (d : PyDict) (k : String) : Bool := d.any (fun p => p.1 == k)

/-! ## Row extractor: HTML tables

`extract_from_html_tables` (`fetch_and_extract.py` lines 103-144) feeds the
document to `re.findall(row_pattern, text, re.DOTALL | re.IGNORECASE)` and
then builds one record per match. The regex engine is an external library
call; its result — the list of five captured groups per `<tr>` row, with an
empty string for the unmatched `href` alternative — is taken as input here
(`HtmlRow`), and everything after the `findall` is embedded. A document
without the substring `<tr>` has no matches. -/

structure HtmlRow where
  company_raw : String
  role_raw : String
  location_raw : String
  application_link : String
  age_raw : String
deriving DecidableEq

/-- Helper for `clean_html_text`: delete every `<[^>]+>` match (leftmost,
non-overlapping). The reversed buffer `buf` holds a pending open tag; a
`<>` with no content is not a match and stays; an unclosed `<...` at the
end of the input stays. -/
def removeTagsAux : List Char → List Char → List Char
  | [], [] => []
  | buf, [] => buf.reverse
  | [], c :: cs => if c == '<' then removeTagsAux [c] cs else c :: removeTagsAux [] cs
  | buf, c :: cs =>
    if c == '>' then
      if buf == ['<'] then '<' :: '>' :: removeTagsAux [] cs
      else removeTagsAux [] cs
    else removeTagsAux (c :: buf) cs

/-- `clean_html_text` (`fetch_and_extract.py` lines 193-206): strip HTML
tags, collapse whitespace, remove the decorative arrow glyph, strip. -/
def clean_html_text (s : String) : String :=
  let noTags := String.mk (removeTagsAux [] s.toList)
  let folded := joinWithSpace (pySplitWS noTags)
  let noArrow := String.mk (folded.toList.filter (fun c => c != '↳'))
  stripStr noArrow

/-- Capture of `[^"]*"`: the characters before the next double quote,
requiring the closing quote to exist. -/
def takeUntilQuote : List Char → Option (List Char)
  | [] => none
  | '"' :: _ => some []
  | c :: cs => (takeUntilQuote cs).map (fun t => c :: t)

/-- The leftmost `re.search` of `href="([^"]*)"`, returning the captured
URL. -/
def searchHrefL : List Char → Option (List Char)
  | [] => none
  | c :: cs =>
    if startsWithL ('h' :: 'r' :: 'e' :: 'f' :: '=' :: '\"' :: []) (c :: cs) then
      match takeUntilQuote ((c :: cs).drop 6) with
      | some cap => some cap
      | none => searchHrefL cs
    else searchHrefL cs

def searchHref (s : String) : Option String := (searchHrefL s.toList).map String.mk

/-- Body of the per-match loop of `extract_from_html_tables`: clean the
cells, recover a missing application link from an embedded `href`, skip
header/placeholder rows, and build the record (with `status` fixed to
"open"). -/
def htmlRowToPos (repo : String) (mt : HtmlRow) : Option PyDict :=
  let company := clean_html_text mt.company_raw
  let role := clean_html_text mt.role_raw
  let location := clean_html_text mt.location_raw
  let application_link :=
    if mt.application_link == "" then
      match searchHref (mt.company_raw ++ mt.role_raw ++ mt.location_raw) with
      | some u => u
      | none => mt.application_link
    else mt.application_link
  if company == "" || stripStr (lowerStr company) == "company"
      || stripStr (lowerStr company) == "↳" || (stripStr company).toList.length < 2 then
    none
  else
    some [("company", company), ("role", role), ("location", location),
          ("application", application_link), ("status", "open"),
          ("date_token", if mt.age_raw == "" then "" else stripStr mt.age_raw),
          ("source_repo", repo)]

def extract_from_html_tables (mts : List HtmlRow) (repo : String) : List PyDict :=
  mts.filterMap (htmlRowToPos repo)

/-! ## Row extractor: Markdown tables -/

/-- Split a document into lines as Python `str.splitlines()` does (no final
empty line after a trailing newline). -/
def splitLinesAux : List Char → List Char → List (List Char)
  | acc, [] => [acc.reverse]
  | acc, '\r' :: '\n' :: cs => acc.reverse :: (if cs.isEmpty then [] else splitLinesAux [] cs)
  | acc, '\n' :: cs => acc.reverse :: (if cs.isEmpty then [] else splitLinesAux [] cs)
  | acc, '\r' :: cs => acc.reverse :: (if cs.isEmpty then [] else splitLinesAux [] cs)
  | acc, c :: cs => splitLinesAux (c :: acc) cs

def pySplitLines (s : String) : List String :=
  if s.toList.isEmpty then [] else (splitLinesAux [] s.toList).map String.mk

/-- The header-line test of `extract_from_markdown_tables` (line 153): a
pipe together with the word "company" or "role", case-insensitively. -/
def mdHeaderPred (line : String) : Bool :=
  strContains line "|" &&
    (strContains (lowerStr line) "company" || strContains (lowerStr line) "role")

/-- Header cells: pipe-split, strip, keep non-empty, lowercase, spaces to
underscores (line 161). -/
def parseHeaders (line : String) : List String :=
  (pySplitChar '|' line).filterMap (fun h =>
    if stripStr h == "" then none
    else some (String.mk ((lowerStr (stripStr h)).toList.map (fun c => if c == ' ' then '_' else c))))

/-- Body of the data-row loop of `extract_from_markdown_tables` (lines
164-189): skip non-rows and separator rules, strip the cells, require at
least as many cells as headers, assign positionally, then post-process the
`application` and `company` fields. -/
def mdRowToPos (repo : String) (headers : List String) (line : String) : Option PyDict :=
  if !(strContains line "|") || startsWithL "|---".toList (stripStr line).toList then none
  else
    let parts := (pySplitChar '|' line).filterMap (fun p =>
      if stripStr p == "" then none else some (stripStr p))
    if parts.length < headers.length then none
    else
      let pos0 : PyDict := [("source_repo", repo)]
      let pos1 := parts.enum.foldl (fun acc ip =>
        if ip.1 < headers.length then dsetKV acc (headers.getD ip.1 "") ip.2 else acc) pos0
      let pos2 :=
        if dhas pos1 "application" then
          match searchHref (dget pos1 "application" "") with
          | some u => dsetKV pos1 "application" u
          | none => pos1
        else pos1
      let pos3 :=
        if dhas pos2 "company" then dsetKV pos2 "company" (clean_html_text (dget pos2 "company" ""))
        else pos2
      some pos3

/-- `extract_from_markdown_tables` (`fetch_and_extract.py` lines 146-191).
The source guards the found header index with `if not header_line:`; both
`None` (no header anywhere) and the integer `0` (header on the very first
line) are falsy in Python, so a document whose first line is the header
yields no rows. -/
def extract_from_markdown_tables (text repo : String) : List PyDict :=
  let lines := pySplitLines text
  match lines.findIdx? mdHeaderPred with
  | none => []
  | some i =>
    if i == 0 then []
    else
      let headers := parseHeaders (lines.getD i "")
      ((lines.drop (i + 2)).filterMap (mdRowToPos repo headers))

/-! ## Merge and dedup -/

/-- The dedup loop of `extract_positions_from_text` (lines 90-99): walk the
concatenated results keeping the first record for each non-empty
`application` link and every record with an empty link. `seen` is the
`seen_links` set. -/
def dedupByLinkAux : List String → List PyDict → List PyDict
  | _, [] => []
  | seen, p :: ps =>
    let link := dget p "application" ""
    if link != "" && !(seen.contains link) then p :: dedupByLinkAux (link :: seen) ps
    else if link == "" then p :: dedupByLinkAux seen ps
    else dedupByLinkAux seen ps

def dedupByLink (ps : List PyDict) : List PyDict := dedupByLinkAux [] ps

/-- `extract_positions_from_text` (`fetch_and_extract.py` lines 76-101):
concatenate the HTML-table and Markdown-table strategy outputs, then dedup
by application link. -/
def extract_positions_from_text (htmlMatches : List HtmlRow) (text repo : String) : List PyDict :=
  dedupByLink (extract_from_html_tables htmlMatches repo ++ extract_from_markdown_tables text repo)

/-! ## Schema normalizer

`standardize_fields_with_ai` (`fetch_and_extract.py` lines 208-256) and its
helper `find_best_field_match` (lines 258-292). The helper is called with
`pos.keys()`, a `dict_keys` view; every branch that finds a match executes
`return available_fields[idx]`, and a `dict_keys` view does not support
subscripting, so each of those returns raises
`TypeError: dict_keys object is not subscriptable` at run time. The
embedding models that raise with `Except.error`. -/

def target_fields : List (String × List String) :=
  [("company", ["company", "organization", "employer", "firm"]),
   ("role", ["role", "position", "job", "title", "internship"]),
   ("location", ["location", "place", "city", "state", "country"]),
   ("application", ["application", "link", "apply", "url", "href"]),
   ("status", ["status", "state", "availability", "open", "closed"]),
   ("date_token", ["date", "posted", "created", "age", "time"])]

def field_abbrevs : List (String × List String) :=
  [("company", ["co", "corp", "inc", "ltd", "llc"]),
   ("role", ["pos", "job", "title"]),
   ("location", ["loc", "place", "addr"]),
   ("application", ["app", "link", "url"]),
   ("status", ["stat", "state"]),
   ("date_token", ["date", "time", "posted"])]

def pyTypeError : String := "TypeError: dict_keys object is not subscriptable"

def find_best_field_match (available_fields : List String) (target_field : String)
    (possible_names : List String) : Except String (Option String) :=
  let available_lower := available_fields.map lowerStr
  -- exact matches: `if name in available_lower: ... return available_fields[idx]`
  match possible_names.find? (fun name => available_lower.contains name) with
  | some _ => .error pyTypeError
  | none =>
    -- partial matches: first field such that some alias is a substring of it
    -- or it is a substring of some alias; `return available_fields[i]`
    match available_lower.find? (fun field =>
        possible_names.any (fun name => strContains field name || strContains name field)) with
    | some _ => .error pyTypeError
    | none =>
      -- abbreviation table; `return available_fields[idx]`
      match (field_abbrevs.find? (fun p => p.1 == target_field)).map (fun p => p.2) with
      | some abbrevs =>
        match abbrevs.find? (fun ab => available_lower.contains ab) with
        | some _ => .error pyTypeError
        | none => .ok none
      | none => .ok none

/-- The first matching loop of `standardize_fields_with_ai` (lines 229-232):
does this source key match the alias list of the target field. The first
disjunct (`key.lower() in possible_names`) is exact equality; the second is
the substring test. -/
def aliasKeyMatch (possible_names : List String) (key : String) : Bool :=
  possible_names.contains (lowerStr key)
    || possible_names.any (fun name => strContains (lowerStr key) name)

/-- Normalize one raw field map into a canonical record (the body of the
`for pos in positions` loop of `standardize_fields_with_ai`). -/
def standardizeOne (pos : PyDict) : Except String PyDict := do
  let mut std : PyDict := [("source_repo", dget pos "source_repo" "")]
  for tf in target_fields do
    match (dkeys pos).find? (fun key => aliasKeyMatch tf.2 key) with
    | some key => std := dsetKV std tf.1 (dget pos key "")
    | none =>
      match find_best_field_match (dkeys pos) tf.1 tf.2 with
      | .error e => throw e
      | .ok (some best) => std := dsetKV std tf.1 (dget pos best "")
      | .ok none => pure ()
  -- per-field defaults (lines 240-252)
  if !(dhas std "company") then std := dsetKV std "company" "Unknown Company"
  if !(dhas std "role") then std := dsetKV std "role" "Unknown Role"
  if !(dhas std "location") then std := dsetKV std "location" "Unknown Location"
  if !(dhas std "application") then std := dsetKV std "application" ""
  if !(dhas std "status") then std := dsetKV std "status" "open"
  if !(dhas std "date_token") then std := dsetKV std "date_token" ""
  return std

def standardize_fields_with_ai (positions : List PyDict) : Except String (List PyDict) :=
  positions.mapM standardizeOne

/-! ## Pipeline coordinator of fetch_and_extract.py (main, lines 294-348)

The network fetch is the external Source Fetcher: `fae_main` starts from
the per-repository document texts (plus the externally computed HTML row
regex matches) and performs extraction, normalization, filtering and
sorting. The CSV/HTML writing of the sink consumes `all_positions_sorted`
unchanged, so the value returned here is the emitted record sequence. -/

/-- One fetched source: repository name, document text, and the result of
the `re.findall` row pattern on that text. -/
structure SourceDoc where
  repo : String
  content : String
  htmlRows : List HtmlRow

/-- The filter of lines 321-324: geography and status. -/
def fae_filter_pred (pos : PyDict) : Bool :=
  looks_like_us_or_canada (dget pos "location" "") &&
    (strContains (lowerStr (dget pos "status" "")) "open" || strContains (dget pos "status" "") "✅")

/-- The sort key `parse_date` of lines 326-328: parsed date token, or the
epoch sentinel. -/
def fae_parse_date (today year : Int) (pos : PyDict) : Int :=
  match fae_parse_date_token today year (dget pos "date_token" "") with
  | some d => d
  | none => epochOrd

/-- Python `sorted(xs, key=key, reverse=True)`: the unique stable sort in
descending key order. `List.insertionSort` with this relation is stable
(`List.sublist_insertionSort`), hence extensionally equal to the Timsort
the interpreter runs. -/
def pySorted (key : α → Int) (xs : List α) : List α :=
  xs.insertionSort (fun a b => key b ≤ key a)

def fae_main (today year : Int) (docs : List SourceDoc) : Except String (List PyDict) := do
  let all_positions := (docs.map (fun d => extract_positions_from_text d.htmlRows d.content d.repo)).flatten
  let std ← standardize_fields_with_ai all_positions
  let filtered_positions := std.filter fae_filter_pred
  return pySorted (fae_parse_date today year) filtered_positions

/-! ## Pipeline coordinator of fetch_intern_list.py (main, lines 399-452)

`scrape_intern_list` is network scraping (the external Source Fetcher);
`il_main` starts from the scraped position list. Lines 413-417 filter by
geography only; lines 420-425 sort; lines 427-436 dedup by URL after the
sort; lines 441-450 restrict each record to the seven canonical columns for
the CSV. -/

def il_parse_date (nowH year : Int) (pos : PyDict) : Int :=
  match il_parse_date_token nowH year (dget pos "date_token" "") with
  | some d => d
  | none => epochOrd

/-- The dedup loop of lines 427-436 (same shape as the extractor-merge
dedup of the other script). -/
def il_dedup : List String → List PyDict → List PyDict
  | _, [] => []
  | seen, p :: ps =>
    let url := dget p "application" ""
    if url != "" && !(seen.contains url) then p :: il_dedup (url :: seen) ps
    else if url == "" then p :: il_dedup seen ps
    else il_dedup seen ps

def il_fieldnames : List String :=
  ["company", "role", "location", "application", "status", "date_token", "source_repo"]

/-- Line 449: `row = {field: pos.get(field, "") for field in fieldnames}`. -/
def il_row_restrict (pos : PyDict) : PyDict :=
  il_fieldnames.map (fun f => (f, dget pos f ""))

def il_main (nowH year : Int) (positions : List PyDict) : List PyDict :=
  let filtered_positions := positions.filter (fun p => looks_like_us_or_canada (dget p "location" ""))
  let positions_sorted := pySorted (il_parse_date nowH year) filtered_positions
  let deduplicated_positions := il_dedup [] positions_sorted
  deduplicated_positions.map il_row_restrict

/-! ## Concrete fixtures -/

/-- A small Markdown-table document of the shape the pipeline consumes,
with the application-link and status cells as parameters. -/
def sampleDoc (status link : String) : String :=
  "Jobs\n| Company | Role | Location | Application | Status | Date |\n| --- | --- | --- | --- | --- | --- |\n| Acme | Dev | Toronto, ON | "
    ++ link ++ " | " ++ status ++ " | 03/14/2025 |"

/-- Two sources whose documents carry the same application link. -/
def c1docs : List SourceDoc :=
  [⟨"r1", sampleDoc "open" "https://x/a", []⟩, ⟨"r2", sampleDoc "open" "https://x/a", []⟩]

/-- A canonical record that is US/Canada but closed. -/
def closedPos : PyDict :=
  [("company", "C"), ("role", "R"), ("location", "Toronto, ON"),
   ("application", "https://x/c"), ("status", "Closed"), ("date_token", ""), ("source_repo", "s")]

/-- A canonical record that passes both fetch_and_extract filters. -/
def openPos : PyDict :=
  [("company", "C"), ("role", "R"), ("location", "Toronto, ON"),
   ("application", "https://x/o"), ("status", "open"), ("date_token", ""), ("source_repo", "s")]

/-- A record whose date token does not parse. -/
def recUnknownDate : PyDict := [("date_token", "")]

/-- A record whose date token parses to a pre-1970 date. -/
def rec1960 : PyDict := [("date_token", "01/01/1960")]

/-- The canonical record made of nothing but the per-field defaults. -/
def defaultsOnlyRec : PyDict :=
  [("source_repo", ""), ("company", "Unknown Company"), ("role", "Unknown Role"),
   ("location", "Unknown Location"), ("application", ""), ("status", "open"), ("date_token", "")]

/-- Two raw field maps with the same non-empty application value. -/
def dupMaps : List PyDict :=
  [[("application", "https://x/dup")], [("application", "https://x/dup")]]

/-- One HTML row match and the record the HTML extractor builds from it. -/
def sampleHtmlRow : HtmlRow := ⟨"Acme", "Dev", "SF", "https://x/h", "2d"⟩

def sampleHtmlPos : PyDict :=
  [("company", "Acme"), ("role", "Dev"), ("location", "SF"),
   ("application", "https://x/h"), ("status", "open"), ("date_token", "2d"), ("source_repo", "r")]

/-! ## Sanity checks of the embedding -/

example : epochOrd = 0 := by decide
example : daysFromCivil 2025 3 14 - daysFromCivil 2025 3 9 = 5 := by decide
example : looks_like_us_or_canada "Toronto, ON" = true := by decide
example : looks_like_us_or_canada "Berlin, Germany" = false := by decide
example : looks_like_us_or_canada "" = false := by decide
example : looks_like_us_or_canada "Redmond, WA" = true := by decide
example : fae_parse_date_token 20000 2025 "5d" = some 19995 := by decide
example : fae_parse_date_token 20000 2025 "03/14/2025" = some (daysFromCivil 2025 3 14) := by decide
example : fae_parse_date_token 20000 2025 "2025-12-25" = some (daysFromCivil 2025 12 25) := by decide
example : fae_parse_date_token 20000 2025 "March 14, 2025" = some (daysFromCivil 2025 3 14) := by decide
example : fae_parse_date_token 20000 2025 "Mar 5" = some (daysFromCivil 2025 3 5) := by decide
example : fae_parse_date_token 20000 2025 "" = none := by decide
example : fae_parse_date_token 20000 2025 "5 days ago" = none := by decide
example : il_parse_date_token 480000 2025 "5d" = none := by decide
example : il_parse_date_token 480000 2025 "5 days ago" = some (480000 / 24 - 5) := by decide
example : il_parse_date_token 480011 2025 "13 hours ago" = some ((480011 - 13) / 24) := by decide

/-! ## Properties of the stable sort -/

theorem pySorted_perm (key : α → Int) (xs : List α) : (pySorted key xs).Perm xs :=
  List.perm_insertionSort _ xs

theorem pySorted_sorted (key : α → Int) (xs : List α) :
    (pySorted key xs).Pairwise (fun a b => key b ≤ key a) := by
  haveI : IsTotal α (fun a b : α => key b ≤ key a) := ⟨fun a b => le_total (key b) (key a)⟩
  haveI : IsTrans α (fun a b : α => key b ≤ key a) := ⟨fun _ _ _ h1 h2 => le_trans h2 h1⟩
  exact List.sorted_insertionSort _ xs

/-- Stability of the embedded sort, in filtering form: the subsequence of
elements sharing any fixed key value is untouched by sorting. -/
theorem pySorted_filter_stable (key : α → Int) (p : α → Bool) (xs : List α)
    (hp : ∀ a b, p a = true → p b = true → key b ≤ key a) :
    (pySorted key xs).filter p = xs.filter p := by
  have hc : (xs.filter p).Pairwise (fun a b => key b ≤ key a) :=
    List.pairwise_of_forall_mem_list (fun a ha b hb =>
      hp a b (List.mem_filter.1 ha).2 (List.mem_filter.1 hb).2)
  have hsub : (xs.filter p).Sublist (pySorted key xs) :=
    List.sublist_insertionSort hc (List.filter_sublist xs)
  have hself : (xs.filter p).filter p = xs.filter p :=
    List.filter_eq_self.2 (fun a ha => (List.mem_filter.1 ha).2)
  have hsub2 : (xs.filter p).Sublist ((pySorted key xs).filter p) := by
    have h2 := hsub.filter p
    rwa [hself] at h2
  have hperm : ((pySorted key xs).filter p).Perm (xs.filter p) :=
    (pySorted_perm key xs).filter p
  exact (hsub2.eq_of_length hperm.length_eq.symm).symm

/-! ## Properties of the link dedup loops -/

theorem dedupAux_cons_keep {seen : List String} {p : PyDict} {ps : List PyDict}
    (h1 : dget p "application" "" ≠ "")
    (h2 : seen.contains (dget p "application" "") = false) :
    dedupByLinkAux seen (p :: ps) =
      p :: dedupByLinkAux (dget p "application" "" :: seen) ps := by
  have h2m : dget p "application" "" ∉ seen := by simpa using h2
  simp [dedupByLinkAux, h1, h2m]

theorem dedupAux_cons_empty {seen : List String} {p : PyDict} {ps : List PyDict}
    (h1 : dget p "application" "" = "") :
    dedupByLinkAux seen (p :: ps) = p :: dedupByLinkAux seen ps := by
  simp [dedupByLinkAux, h1]

theorem dedupAux_cons_skip {seen : List String} {p : PyDict} {ps : List PyDict}
    (h1 : dget p "application" "" ≠ "")
    (h2 : seen.contains (dget p "application" "") = true) :
    dedupByLinkAux seen (p :: ps) = dedupByLinkAux seen ps := by
  have h2m : dget p "application" "" ∈ seen := by simpa using h2
  simp [dedupByLinkAux, h1, h2m]

theorem il_dedup_eq_dedupByLinkAux : ∀ (seen : List String) (ps : List PyDict),
    il_dedup seen ps = dedupByLinkAux seen ps := by
  intro seen ps
  induction ps generalizing seen with
  | nil => rfl
  | cons p ps ih =>
    simp only [il_dedup, dedupByLinkAux]
    split
    · rw [ih]
    · split
      · rw [ih]
      · rw [ih]

theorem indicator_false : (if (false = true) then (1 : Nat) else 0) = 0 := rfl

theorem indicator_true : (if (true = true) then (1 : Nat) else 0) = 1 := rfl

theorem dedupAux_countP_le (link : String) (hl : link ≠ "") :
    ∀ (ps : List PyDict) (seen : List String),
      (dedupByLinkAux seen ps).countP (fun p => dget p "application" "" == link)
        ≤ (if link ∈ seen then 0 else 1) := by
  intro ps
  induction ps with
  | nil =>
    intro seen
    simp only [dedupByLinkAux, List.countP_nil]
    split <;> omega
  | cons p ps ih =>
    intro seen
    by_cases hurl : dget p "application" "" = ""
    · have hmatch : (dget p "application" "" == link) = false := by
        rw [hurl]; exact beq_eq_false_iff_ne.2 (Ne.symm hl)
      rw [dedupAux_cons_empty hurl, List.countP_cons, hmatch, indicator_false, Nat.add_zero]
      exact ih seen
    · by_cases hseen : dget p "application" "" ∈ seen
      · rw [dedupAux_cons_skip hurl (by simpa using hseen)]
        exact ih seen
      · rw [dedupAux_cons_keep hurl (by simpa using hseen), List.countP_cons]
        by_cases heq : dget p "application" "" = link
        · have h1 : (dget p "application" "" == link) = true := beq_iff_eq.2 heq
          have h3 := ih (dget p "application" "" :: seen)
          rw [if_pos (by rw [heq]; exact List.mem_cons_self _ _)] at h3
          rw [h1, indicator_true, if_neg (heq ▸ hseen)]
          omega
        · have h1 : (dget p "application" "" == link) = false := beq_eq_false_iff_ne.2 heq
          have h3 := ih (dget p "application" "" :: seen)
          have hmem : (link ∈ dget p "application" "" :: seen) ↔ link ∈ seen := by
            constructor
            · intro h
              rcases List.mem_cons.1 h with h | h
              · exact absurd h.symm heq
              · exact h
            · exact fun h => List.mem_cons_of_mem _ h
          rw [h1, indicator_false, Nat.add_zero]
          rw [if_congr hmem rfl rfl] at h3
          omega

theorem dedupAux_countP_eq_one (link : String) (hl : link ≠ "") :
    ∀ (ps : List PyDict) (seen : List String), link ∉ seen →
      0 < ps.countP (fun p => dget p "application" "" == link) →
      (dedupByLinkAux seen ps).countP (fun p => dget p "application" "" == link) = 1 := by
  intro ps
  induction ps with
  | nil =>
    intro seen _ hpos
    simp only [List.countP_nil] at hpos
    omega
  | cons p ps ih =>
    intro seen hseen hpos
    by_cases heq : dget p "application" "" = link
    · have hurl : dget p "application" "" ≠ "" := heq ▸ hl
      have hnotin : dget p "application" "" ∉ seen := heq ▸ hseen
      rw [dedupAux_cons_keep hurl (by simpa using hnotin), List.countP_cons, beq_iff_eq.2 heq,
        indicator_true]
      have hle := dedupAux_countP_le link hl ps (dget p "application" "" :: seen)
      rw [if_pos (by rw [heq]; exact List.mem_cons_self _ _)] at hle
      omega
    · have h1 : (dget p "application" "" == link) = false := beq_eq_false_iff_ne.2 heq
      rw [List.countP_cons, h1, indicator_false, Nat.add_zero] at hpos
      by_cases hurl : dget p "application" "" = ""
      · rw [dedupAux_cons_empty hurl, List.countP_cons, h1, indicator_false, Nat.add_zero]
        exact ih seen hseen hpos
      · by_cases hsn : dget p "application" "" ∈ seen
        · rw [dedupAux_cons_skip hurl (by simpa using hsn)]
          exact ih seen hseen (by omega)
        · rw [dedupAux_cons_keep hurl (by simpa using hsn), List.countP_cons, h1,
            indicator_false, Nat.add_zero]
          have hnotin : link ∉ dget p "application" "" :: seen := by
            intro h
            rcases List.mem_cons.1 h with h | h
            · exact heq h.symm
            · exact hseen h
          exact ih _ hnotin hpos

theorem dedupAux_keeps_empty :
    ∀ (ps : List PyDict) (seen : List String) (p : PyDict), p ∈ ps →
      dget p "application" "" = "" → p ∈ dedupByLinkAux seen ps := by
  intro ps
  induction ps with
  | nil => intro seen p h; cases h
  | cons q ps ih =>
    intro seen p hmem hempty
    rcases List.mem_cons.1 hmem with rfl | htail
    · rw [dedupAux_cons_empty hempty]
      exact List.mem_cons_self _ _
    · by_cases hurl : dget q "application" "" = ""
      · rw [dedupAux_cons_empty hurl]
        exact List.mem_cons_of_mem _ (ih _ _ htail hempty)
      · by_cases hsn : dget q "application" "" ∈ seen
        · rw [dedupAux_cons_skip hurl (by simpa using hsn)]
          exact ih _ _ htail hempty
        · rw [dedupAux_cons_keep hurl (by simpa using hsn)]
          exact List.mem_cons_of_mem _ (ih _ _ htail hempty)

/-! ## Lemmas about relative-date tokens -/

theorem digit_not_space {c : Char} (h : pyIsDigit c = true) : pyIsSpace c = false := by
  simp only [pyIsDigit, Bool.and_eq_true, decide_eq_true_eq] at h
  simp only [pyIsSpace, Bool.or_eq_false_iff, beq_eq_false_iff_ne]
  refine ⟨⟨⟨⟨⟨?_, ?_⟩, ?_⟩, ?_⟩, ?_⟩, ?_⟩ <;> (rintro rfl; exact absurd h (by decide))

theorem dropWhile_eq_self_of_head {p : Char → Bool} {c : Char} {cs : List Char}
    (h : p c = false) : (c :: cs).dropWhile p = c :: cs := by
  simp [List.dropWhile_cons, h]

/-- Stripping is the identity on a token made of a nonempty digit run
followed by a suffix whose final character is not whitespace. -/
theorem stripL_token {ds sfx : List Char} (hne : ds ≠ [])
    (hd : ∀ c ∈ ds, pyIsDigit c = true)
    (hlast : ∀ c cs2, sfx.reverse = c :: cs2 → pyIsSpace c = false)
    (hsne : sfx ≠ []) :
    stripL (ds ++ sfx) = ds ++ sfx := by
  obtain ⟨e, ds2, rfl⟩ := List.exists_cons_of_ne_nil hne
  have hfront : ((e :: ds2) ++ sfx).dropWhile pyIsSpace = (e :: ds2) ++ sfx := by
    exact dropWhile_eq_self_of_head (digit_not_space (hd e (List.mem_cons_self _ _)))
  unfold stripL
  rw [hfront]
  obtain ⟨c, cs2, hrev⟩ : ∃ c cs2, sfx.reverse = c :: cs2 := by
    cases hsr : sfx.reverse with
    | nil => exact absurd (by simpa using hsr) hsne
    | cons c cs2 => exact ⟨c, cs2, rfl⟩
  rw [List.reverse_append, hrev, List.cons_append]
  rw [dropWhile_eq_self_of_head (hlast c cs2 hrev)]
  rw [← List.cons_append, ← hrev, ← List.reverse_append, List.reverse_reverse]

/-- The maximal digit run of a digit run followed by a non-digit. -/
theorem takeDigits_append {ds sfx : List Char} (hd : ∀ c ∈ ds, pyIsDigit c = true)
    (hsfx : ∀ c cs2, sfx = c :: cs2 → pyIsDigit c = false) :
    takeDigits (ds ++ sfx) = (ds, sfx) := by
  induction ds with
  | nil =>
    cases hs : sfx with
    | nil => rfl
    | cons c cs2 =>
      simp only [List.nil_append, takeDigits, hsfx c cs2 hs, if_neg Bool.false_ne_true]
  | cons e ds2 ih =>
    simp only [List.cons_append, takeDigits, hd e (List.mem_cons_self _ _),
      eq_self_iff_true, if_true, List.append_eq]
    rw [ih (fun c hc => hd c (List.mem_cons_of_mem _ hc))]

theorem matchDaysAgo_token {ds : List Char} (hne : ds ≠ [])
    (hd : ∀ c ∈ ds, pyIsDigit c = true) :
    matchDaysAgo (ds ++ " days ago".toList) = some (natOfDigitsL ds : Int) := by
  obtain ⟨e, ds2, rfl⟩ := List.exists_cons_of_ne_nil hne
  unfold matchDaysAgo
  rw [takeDigits_append hd (by intro c cs2 h; cases h; decide)]
  rfl

theorem matchHoursAgo_token {ds : List Char} (hne : ds ≠ [])
    (hd : ∀ c ∈ ds, pyIsDigit c = true) :
    matchHoursAgo (ds ++ " hours ago".toList) = some (natOfDigitsL ds : Int) := by
  obtain ⟨e, ds2, rfl⟩ := List.exists_cons_of_ne_nil hne
  unfold matchHoursAgo
  rw [takeDigits_append hd (by intro c cs2 h; cases h; decide)]
  rfl

theorem matchDaysAgo_nd {ds : List Char} (hd : ∀ c ∈ ds, pyIsDigit c = true) :
    matchDaysAgo (ds ++ ['d']) = none := by
  unfold matchDaysAgo
  rw [takeDigits_append hd (by intro c cs2 h; cases h; decide)]
  cases ds <;> rfl

theorem toList_mk (l : List Char) : (String.mk l).toList = l := rfl

theorem fae_parse_nd (today year : Int) {ds : List Char} (hne : ds ≠ [])
    (hd : ∀ c ∈ ds, pyIsDigit c = true) :
    fae_parse_date_token today year (String.mk (ds ++ ['d']))
      = some (today - (natOfDigitsL ds : Int)) := by
  obtain ⟨e, ds2, rfl⟩ := List.exists_cons_of_ne_nil hne
  simp only [fae_parse_date_token, toList_mk]
  rw [stripL_token hne hd (by intro c cs2 h; cases h; decide) (by simp)]
  rw [takeDigits_append hd (by intro c cs2 h; cases h; decide)]
  rfl

theorem il_parse_days_ago (nowH year : Int) {ds : List Char} (hne : ds ≠ [])
    (hd : ∀ c ∈ ds, pyIsDigit c = true) :
    il_parse_date_token nowH year (String.mk (ds ++ " days ago".toList))
      = some (nowH.fdiv 24 - (natOfDigitsL ds : Int)) := by
  obtain ⟨e, ds2, rfl⟩ := List.exists_cons_of_ne_nil hne
  simp only [il_parse_date_token, toList_mk]
  rw [show (String.mk ((e :: ds2) ++ " days ago".toList) == "") = false from rfl]
  rw [if_neg Bool.false_ne_true]
  rw [stripL_token hne hd (by intro c cs2 h; cases h; decide) (by simp)]
  rw [matchDaysAgo_token hne hd]

theorem il_parse_hours_ago (nowH year : Int) {ds : List Char} (hne : ds ≠ [])
    (hd : ∀ c ∈ ds, pyIsDigit c = true) :
    il_parse_date_token nowH year (String.mk (ds ++ " hours ago".toList))
      = some ((nowH - (natOfDigitsL ds : Int)).fdiv 24) := by
  obtain ⟨e, ds2, rfl⟩ := List.exists_cons_of_ne_nil hne
  simp only [il_parse_date_token, toList_mk]
  rw [show (String.mk ((e :: ds2) ++ " hours ago".toList) == "") = false from rfl]
  rw [if_neg Bool.false_ne_true]
  rw [stripL_token hne hd (by intro c cs2 h; cases h; decide) (by simp)]
  have hnd : matchDaysAgo ((e :: ds2) ++ " hours ago".toList) = none := by
    unfold matchDaysAgo
    rw [takeDigits_append hd (by intro c cs2 h; cases h; decide)]
    rfl
  rw [hnd, matchHoursAgo_token hne hd]

/-! ## Claims -/

/-- Claim C1, counterexample. The claim asserts a final dedup pass by
`application` over the whole merged sorted set in the Pipeline Coordinator;
`fetch_and_extract.py` has no such pass (dedup happens only inside
`extract_positions_from_text`, per document), so the same non-empty link
arriving from two different sources is emitted twice. -/
theorem C1_counterexample :
    (fae_main 20000 2025 c1docs).map
        (fun l => l.countP (fun p => dget p "application" "" == "https://x/a")) = .ok 2
      ∧ ("https://x/a" : String) ≠ "" :=
  ⟨rfl, by decide⟩

/-- Claim C1, amended: only the `fetch_intern_list.py` coordinator performs
the final dedup pass by `application` after sorting; in its emitted set at
most one record carries any given non-empty application value. -/
theorem C1_intern_list_final_dedup :
    ∀ (nowH year : Int) (positions : List PyDict) (link : String), link ≠ "" →
      (il_main nowH year positions).countP (fun p => dget p "application" "" == link) ≤ 1 := by
  intro nowH year positions link hl
  simp only [il_main]
  rw [il_dedup_eq_dedupByLinkAux, List.countP_map]
  have hfun : ((fun p => dget p "application" "" == link) ∘ il_row_restrict)
      = (fun p : PyDict => dget p "application" "" == link) := by
    funext p
    show (dget (il_row_restrict p) "application" "" == link) = _
    rw [show dget (il_row_restrict p) "application" "" = dget p "application" "" from rfl]
  rw [hfun]
  have h := dedupAux_countP_le link hl
    (pySorted (il_parse_date nowH year)
      (positions.filter (fun p => looks_like_us_or_canada (dget p "location" "")))) []
  simpa using h

theorem C1_witness :
    (il_main 500000 2025 [[("location", "Toronto, ON"), ("application", "https://x/w")],
        [("location", "Toronto, ON"), ("application", "https://x/w")]]).countP
      (fun p => dget p "application" "" == "https://x/w") ≤ 1 :=
  C1_intern_list_final_dedup 500000 2025 _ "https://x/w" (by decide)

/-- Claim C2, counterexample. The claim asserts every coordinator retains a
record only if it passes both the geography and the status filter;
`fetch_intern_list.py` main filters by geography alone (lines 413-417), so
a record with status "Closed" and a Toronto location reaches the final
output even though it fails the status test. -/
theorem C2_counterexample :
    il_main 500000 2025 [closedPos] = [closedPos]
      ∧ (strContains (lowerStr (dget closedPos "status" "")) "open"
          || strContains (dget closedPos "status" "") "✅") = false :=
  ⟨by decide, by decide⟩

/-- Claim C2, amended: in `fetch_and_extract.py` the coordinator retains a
normalized record iff it passes both the geography filter and the status
filter, and a record with status "Closed" is excluded from the final
output; `fetch_intern_list.py` applies only the geography filter. -/
theorem C2_fae_filter :
    (∀ (ps : List PyDict) (pos : PyDict),
        pos ∈ ps.filter fae_filter_pred ↔
          pos ∈ ps ∧ looks_like_us_or_canada (dget pos "location" "") = true ∧
            (strContains (lowerStr (dget pos "status" "")) "open"
              || strContains (dget pos "status" "") "✅") = true)
    ∧ fae_main 20000 2025 [⟨"r1", sampleDoc "Closed" "https://x/c", []⟩] = .ok [] := by
  constructor
  · intro ps pos
    simp only [List.mem_filter, fae_filter_pred, Bool.and_eq_true, and_assoc]
  · rfl

theorem C2_witness : openPos ∈ ([openPos] : List PyDict).filter fae_filter_pred :=
  (C2_fae_filter.1 [openPos] openPos).2 ⟨List.mem_cons_self _ _, by decide, by decide⟩

/-- Claim C3, counterexample. The claim asserts one parser handling both
the bare "Nd" form and the "N days/hours ago" phrases; the
`fetch_and_extract.py` variant rejects the phrases and the
`fetch_intern_list.py` variant rejects the bare form. -/
theorem C3_counterexample :
    fae_parse_date_token 20000 2025 "5 days ago" = none
      ∧ il_parse_date_token 480000 2025 "5d" = none :=
  ⟨by decide, by decide⟩

/-- Claim C3, amended: `fetch_and_extract.py` handles exactly the bare
digits-then-`d` form, returning today minus N; `fetch_intern_list.py`
handles exactly the "N days ago" and "N hours ago" phrases, returning the
date of now minus N days resp. the date of now minus N hours (which falls
on the previous day when the subtraction crosses midnight). -/
theorem C3_relative_tokens :
    ∀ (today nowH year : Int) (ds : List Char), ds ≠ [] →
      (∀ c ∈ ds, pyIsDigit c = true) →
      fae_parse_date_token today year (String.mk (ds ++ ['d']))
          = some (today - (natOfDigitsL ds : Int))
      ∧ il_parse_date_token nowH year (String.mk (ds ++ " days ago".toList))
          = some (nowH.fdiv 24 - (natOfDigitsL ds : Int))
      ∧ il_parse_date_token nowH year (String.mk (ds ++ " hours ago".toList))
          = some ((nowH - (natOfDigitsL ds : Int)).fdiv 24) :=
  fun today nowH year _ hne hd =>
    ⟨fae_parse_nd today year hne hd, il_parse_days_ago nowH year hne hd,
     il_parse_hours_ago nowH year hne hd⟩

theorem C3_witness :
    fae_parse_date_token 20000 2025 (String.mk (['5'] ++ ['d'])) = some (20000 - 5)
      ∧ il_parse_date_token 480000 2025 (String.mk (['5'] ++ " days ago".toList))
          = some ((480000 : Int).fdiv 24 - 5)
      ∧ il_parse_date_token 480011 2025 (String.mk (['5'] ++ " hours ago".toList))
          = some (((480011 : Int) - 5).fdiv 24) := by
  have h1 := C3_relative_tokens 20000 480000 2025 ['5'] (by decide) (by decide)
  have h2 := C3_relative_tokens 20000 480011 2025 ['5'] (by decide) (by decide)
  exact ⟨h1.1, h1.2.1, h2.2.2⟩

theorem ite_cond_or (a x : Bool) : (if a = true then true else x) = (a || x) := by
  cases a <;> simp

/-- Claim C4: the geography classifier agrees with the claimed
marker-or-state-token description, is false on the empty string, true on
"Toronto, ON" and false on "Berlin, Germany". -/
theorem C4_geography_classifier :
    (∀ loc, looks_like_us_or_canada loc = is_us_or_canada_location_spec loc)
      ∧ looks_like_us_or_canada "" = false
      ∧ looks_like_us_or_canada "Toronto, ON" = true
      ∧ looks_like_us_or_canada "Berlin, Germany" = false := by
  refine ⟨?_, by decide, by decide, by decide⟩
  intro loc
  cases hb : (loc == "") with
  | true => simp [looks_like_us_or_canada, is_us_or_canada_location_spec, hb]
  | false =>
    simp only [looks_like_us_or_canada, is_us_or_canada_location_spec, hb,
      Bool.false_eq_true, if_false, List.any_cons, List.any_nil, Bool.or_false]
    rw [ite_cond_or, ite_cond_or]
    simp [Bool.or_assoc]

/-- Claim C5, counterexample. The claim asserts a record whose date token
fails to parse "therefore sorts as oldest"; the sentinel is 1970-01-01, and
a record whose token parses to a pre-1970 date sorts below it, so the
unknown-date record is emitted first (as the more recent of the two). -/
theorem C5_counterexample :
    pySorted (fae_parse_date 20000 2025) [rec1960, recUnknownDate]
        = [recUnknownDate, rec1960]
      ∧ fae_parse_date 20000 2025 recUnknownDate = epochOrd
      ∧ fae_parse_date 20000 2025 rec1960 < epochOrd
      ∧ fae_parse_date_token 20000 2025 "01/01/1960" = some (daysFromCivil 1960 1 1) :=
  ⟨by decide, by decide, by decide, by decide⟩

/-- Claim C5, amended: retained records are sorted by derived recency date
in descending order by a stable sort (records with equal derived dates keep
their relative input order), and a record whose token fails to parse is
assigned the fixed sentinel 1970-01-01 — which sorts as oldest only among
records whose parsed dates are on or after 1970. -/
theorem C5_sort_stable_desc :
    ∀ (key : PyDict → Int) (xs : List PyDict),
      (pySorted key xs).Pairwise (fun a b => key b ≤ key a)
      ∧ (pySorted key xs).Perm xs
      ∧ (∀ d : Int, (pySorted key xs).filter (fun x => key x == d)
            = xs.filter (fun x => key x == d))
      ∧ (∀ today year pos, fae_parse_date_token today year (dget pos "date_token" "") = none →
            fae_parse_date today year pos = epochOrd)
      ∧ (∀ nowH year pos, il_parse_date_token nowH year (dget pos "date_token" "") = none →
            il_parse_date nowH year pos = epochOrd) := by
  intro key xs
  refine ⟨pySorted_sorted key xs, pySorted_perm key xs, ?_, ?_, ?_⟩
  · intro d
    refine pySorted_filter_stable key _ xs (fun a b ha hb => ?_)
    rw [beq_iff_eq.1 ha, beq_iff_eq.1 hb]
  · intro today year pos h
    unfold fae_parse_date
    rw [h]
  · intro nowH year pos h
    unfold il_parse_date
    rw [h]

theorem C5_witness :
    (pySorted (fae_parse_date 20000 2025) [rec1960, recUnknownDate]).Perm
        [rec1960, recUnknownDate]
      ∧ fae_parse_date 20000 2025 recUnknownDate = epochOrd := by
  have h := C5_sort_stable_desc (fae_parse_date 20000 2025) [rec1960, recUnknownDate]
  exact ⟨h.2.1, h.2.2.2.1 20000 2025 recUnknownDate (by decide)⟩

/-- Claim C6: merging the strategies on one document concatenates their
outputs and dedups by non-empty application link, first occurrence winning,
keeping empty-link records; of two raw maps with the same non-empty link
exactly one survives. -/
theorem C6_merge_dedup :
    (∀ (rows : List HtmlRow) (text repo : String),
        extract_positions_from_text rows text repo
          = dedupByLink (extract_from_html_tables rows repo
              ++ extract_from_markdown_tables text repo))
    ∧ (∀ (ps : List PyDict) (link : String), link ≠ "" →
        (dedupByLink ps).countP (fun p => dget p "application" "" == link) ≤ 1
        ∧ (0 < ps.countP (fun p => dget p "application" "" == link) →
            (dedupByLink ps).countP (fun p => dget p "application" "" == link) = 1))
    ∧ (∀ (ps : List PyDict) (p : PyDict), p ∈ ps → dget p "application" "" = "" →
        p ∈ dedupByLink ps) := by
  refine ⟨fun _ _ _ => rfl, ?_, ?_⟩
  · intro ps link hl
    constructor
    · have h := dedupAux_countP_le link hl ps []
      simpa using h
    · intro hpos
      exact dedupAux_countP_eq_one link hl ps [] (by simp) hpos
  · intro ps p hmem hempty
    exact dedupAux_keeps_empty ps [] p hmem hempty

theorem C6_witness :
    (dedupByLink dupMaps).countP (fun p => dget p "application" "" == "https://x/dup") = 1 :=
  (C6_merge_dedup.2.1 dupMaps "https://x/dup" (by decide)).2 (by decide)

/-- Claim C7: the absolute-date cascade tries MM/DD/YYYY, then YYYY-MM-DD,
then Month DD[,] YYYY, then Mon DD with the year defaulted to the current
year, returns the first successfully parsed date (a match that fails
validation falls through to the next pattern), and returns no value — not
an error — when nothing matches, including on the empty string. Both
parser variants share the cascade. -/
theorem C7_format_priority :
    (∀ today year : Int, fae_parse_date_token today year "" = none)
    ∧ (∀ nowH year : Int, il_parse_date_token nowH year "" = none)
    ∧ fae_parse_date_token 20000 2025 "03/14/2025" = some (daysFromCivil 2025 3 14)
    ∧ il_parse_date_token 480000 2025 "03/14/2025" = some (daysFromCivil 2025 3 14)
    ∧ fae_parse_date_token 20000 2025 "03/14/2025 2025-12-25" = some (daysFromCivil 2025 3 14)
    ∧ fae_parse_date_token 20000 2025 "13/40/9999 2025-12-25" = some (daysFromCivil 2025 12 25)
    ∧ fae_parse_date_token 20000 2025 "2025-12-25 March 1, 2024" = some (daysFromCivil 2025 12 25)
    ∧ fae_parse_date_token 20000 2025 "March 14, 2025" = some (daysFromCivil 2025 3 14)
    ∧ fae_parse_date_token 20000 2025 "Mar 5" = some (daysFromCivil 2025 3 5) :=
  ⟨fun _ _ => rfl, fun _ _ => rfl, by decide, by decide, by decide, by decide, by decide,
   by decide, by decide⟩

/-- Claim C8: the normalizer produces all seven canonical fields with the
stated defaults when no alias matches any source key, but when a source key
is matched by the abbreviation/partial fallback the helper subscripts the
`dict_keys` view and the program raises TypeError instead of producing a
record — `{"corp": "Acme"}` is such an input. -/
theorem C8_normalizer_crash :
    standardize_fields_with_ai [[("corp", "Acme")]] = .error pyTypeError
      ∧ standardize_fields_with_ai [[("zzz", "1")]] = .ok [defaultsOnlyRec] :=
  ⟨rfl, rfl⟩

/-- Claim C9: the Markdown-header strategy is claimed to work wherever the
first header line occurs; the source guards the found index with
`if not header_line:`, and index 0 is falsy, so a document whose very first
line is the header yields no rows, while the same document shifted one line
down yields the row. -/
theorem C9_markdown_header_line0 :
    extract_from_markdown_tables "| Company | Role |\n| --- | --- |\n| Acme | Dev |" "r" = []
      ∧ extract_from_markdown_tables
          "Title\n| Company | Role |\n| --- | --- |\n| Acme | Dev |" "r"
          = [[("source_repo", "r"), ("company", "Acme"), ("role", "Dev")]]
      ∧ mdHeaderPred "| Company | Role |" = true :=
  ⟨by decide, by decide, by decide⟩

set_option maxHeartbeats 2000000 in
/-- Claim C10: every record built by the HTML-table strategy has status
exactly "open"; that status passes the downstream status filter, and it is
preserved by the normalizer, so no HTML-extracted record is ever excluded
by the status filter. -/
theorem C10_html_status_open :
    ∀ (rows : List HtmlRow) (repo : String) (p : PyDict),
      p ∈ extract_from_html_tables rows repo →
        dget p "status" "" = "open"
        ∧ (strContains (lowerStr (dget p "status" "")) "open"
            || strContains (dget p "status" "") "✅") = true
        ∧ ∃ q, standardizeOne p = .ok q ∧ dget q "status" "" = "open" := by
  intro rows repo p hmem
  obtain ⟨mt, _, hsome⟩ := List.mem_filterMap.1 hmem
  simp only [htmlRowToPos] at hsome
  split at hsome
  · exact absurd hsome (by simp)
  · injection hsome with h
    subst h
    exact ⟨rfl, rfl, ⟨_, rfl, rfl⟩⟩

theorem C10_witness :
    dget sampleHtmlPos "status" "" = "open"
      ∧ (strContains (lowerStr (dget sampleHtmlPos "status" "")) "open"
          || strContains (dget sampleHtmlPos "status" "") "✅") = true
      ∧ ∃ q, standardizeOne sampleHtmlPos = .ok q ∧ dget q "status" "" = "open" :=
  C10_html_status_open [sampleHtmlRow] "r" sampleHtmlPos (by decide)
